import Mathlib

/-!
Verification of the brainsmash CIFTI index-mapping subsystem
(`brainsmash/neuro/io.py`) and smoothing-kernel functions
(`brainsmash/utils/kernels.py`) against their natural-language
specification.  The Python source is shallowly embedded: pure functions
become Lean functions, exceptions become `Except PyErr`, the external
`wb_command` tool is a parameter, and the temp-directory side effects of
`export_cifti_mapping` are threaded explicitly as a list of scratch
directories.
-/

deriving instance DecidableEq for Except

namespace Brainsmash

/-- Python exceptions raised along the code paths under study.  `runtimeError`
carries the formatted message the source builds. -/
inductive PyErr where
  | typeError (msg : String)
  | indexError
  | valueError (msg : String)
  | keyError (key : String)
  | zeroDivisionError
  | attributeError
  | runtimeError (msg : String)
  deriving Repr, DecidableEq

/-! ## Numeric model

Distances and weights are IEEE doubles in the source; here they are modelled
as exact rationals extended with `inf`, `-inf` and `nan`, which is enough to
express the control flow and the division-by-zero behaviour of numpy (numpy
float division never raises: `1.0/0.0` is `inf` with a warning). -/

/-- A numpy floating-point value: a finite rational, an infinity, or nan. -/
inductive NpF where
  | val (q : ℚ)
  | inf
  | ninf
  | nan
  deriving Repr, DecidableEq

/-- numpy elementwise float division: never raises; division by zero yields
`inf`/`-inf`/`nan` according to the sign of the numerator. -/
def npDiv : NpF → NpF → NpF
  | .val a, .val b =>
      if b = 0 then (if a = 0 then .nan else if 0 < a then .inf else .ninf)
      else .val (a / b)
  | .val _, .inf => .val 0
  | .val _, .ninf => .val 0
  | .inf, .val b => if b < 0 then .ninf else .inf
  | .ninf, .val b => if b < 0 then .inf else .ninf
  | .inf, .inf => .nan
  | .inf, .ninf => .nan
  | .ninf, .inf => .nan
  | .ninf, .ninf => .nan
  | .nan, _ => .nan
  | _, .nan => .nan

/-- The reciprocal `1. / x` of one numpy float. -/
def npRecip (x : NpF) : NpF := npDiv (.val 1) x

/-- numpy `np.square` on one value. -/
def npSquare : NpF → NpF
  | .val q => .val (q * q)
  | .inf => .inf
  | .ninf => .inf
  | .nan => .nan

/-- Multiplication by the constant `-0.5` (as in `-0.5 * np.square ...`). -/
def npNegHalf : NpF → NpF
  | .val q => .val (-(q / 2))
  | .inf => .ninf
  | .ninf => .inf
  | .nan => .nan

/-- Negation (the `-d` in `np.exp(-d / d.max())`). -/
def npNeg : NpF → NpF
  | .val q => .val (-q)
  | .inf => .ninf
  | .ninf => .inf
  | .nan => .nan

/-- Binary maximum with numpy's nan propagation (`ndarray.max` propagates
nan). -/
def npMax2 : NpF → NpF → NpF
  | .nan, _ => .nan
  | _, .nan => .nan
  | .inf, _ => .inf
  | _, .inf => .inf
  | .ninf, b => b
  | a, .ninf => a
  | .val a, .val b => .val (max a b)

/-- `ndarray.max()` over one axis row: numpy raises
`ValueError: zero-size array to reduction operation` on an empty row. -/
def rowMax (xs : List NpF) : Except PyErr NpF :=
  match xs with
  | [] => .error (.valueError "zero-size array to reduction operation maximum")
  | x :: rest => .ok (rest.foldl npMax2 x)

/-! ## Python values reaching the kernel functions -/

/-- A Python value passed to a kernel function: a Python scalar, a 0-, 1- or
2-dimensional ndarray, a string, or `None`. -/
inductive PyVal where
  | int (n : ℤ)
  | float (q : ℚ)
  | arr0 (x : NpF)
  | arr1 (xs : List NpF)
  | arr2 (xss : List (List NpF))
  | str (s : String)
  | none
  deriving Repr, DecidableEq

/-- `type(d)` as Python prints the class name. -/
def pyTypeName : PyVal → String
  | .int _ => "int"
  | .float _ => "float"
  | .arr0 _ => "numpy.ndarray"
  | .arr1 _ => "numpy.ndarray"
  | .arr2 _ => "numpy.ndarray"
  | .str _ => "str"
  | .none => "NoneType"

/-- The message of the `TypeError` every kernel raises on non-array input:
`"expected array_like, got {}".format(type(d))`. -/
def arrayLikeMsg (d : PyVal) : String :=
  "expected array_like, got <class '" ++ pyTypeName d ++ "'>"

/-- The `TypeError` Python itself raises for `1. / d` on a non-numeric `d`. -/
def unsupportedDivMsg (d : PyVal) : String :=
  "unsupported operand type(s) for /: 'float' and '" ++ pyTypeName d ++ "'"

/-! ## kernels.py

Each kernel follows the source's `try: <2-dim> / except IndexError: <1-dim> /
except AttributeError: raise TypeError` structure.  The dispatch facts it
relies on: a 2-D ndarray runs the broadcasting expression directly; for a
1-D or 0-D ndarray, `d.max(axis=-1)` is a numpy scalar and indexing it with
`[:, np.newaxis]` raises `IndexError`, selecting the 1-dim branch; a Python
scalar, string or `None` has no `.max`/`.shape` attribute, so the 2-dim
expression raises `AttributeError`, re-raised as `TypeError`.  `np.exp` is an
external numeric routine and is passed in as the parameter `e`. -/

/-- `gaussian(d)`: `np.exp(-0.5 * np.square(d / d.max(axis=-1)[:, np.newaxis]))`,
falling back to `np.exp(-0.5 * np.square(d/d.max()))` on `IndexError`. -/
def gaussian (e : NpF → NpF) (d : PyVal) : Except PyErr PyVal :=
  match d with
  | .arr2 xss =>
      (xss.mapM rowMax).map fun ms =>
        .arr2 ((xss.zip ms).map fun p =>
          p.1.map fun x => e (npNegHalf (npSquare (npDiv x p.2))))
  | .arr1 xs =>
      (rowMax xs).map fun m =>
        .arr1 (xs.map fun x => e (npNegHalf (npSquare (npDiv x m))))
  | .arr0 x => .ok (.arr0 (e (npNegHalf (npSquare (npDiv x x)))))
  | v => .error (.typeError (arrayLikeMsg v))

/-- `exp(d)`: `np.exp(-d / d.max(axis=-1)[:, np.newaxis])`, falling back to
`np.exp(-d/d.max())` on `IndexError`. -/
def exp (e : NpF → NpF) (d : PyVal) : Except PyErr PyVal :=
  match d with
  | .arr2 xss =>
      (xss.mapM rowMax).map fun ms =>
        .arr2 ((xss.zip ms).map fun p =>
          p.1.map fun x => e (npDiv (npNeg x) p.2))
  | .arr1 xs =>
      (rowMax xs).map fun m => .arr1 (xs.map fun x => e (npDiv (npNeg x) m))
  | .arr0 x => .ok (.arr0 (e (npDiv (npNeg x) x)))
  | v => .error (.typeError (arrayLikeMsg v))

/-- `invdist(d)`: `1. / d`.  For a Python scalar this is ordinary Python
division (`ZeroDivisionError` at zero, otherwise a float); for an ndarray it
is numpy elementwise division, which never raises; for a string or `None`,
Python raises `TypeError: unsupported operand ...`, which the source's
`except` clauses (`ZeroDivisionError`, `AttributeError`) do not catch. -/
def invdist (d : PyVal) : Except PyErr PyVal :=
  match d with
  | .int n => if n = 0 then .error .zeroDivisionError else .ok (.float (1 / (n : ℚ)))
  | .float q => if q = 0 then .error .zeroDivisionError else .ok (.float (1 / q))
  | .arr0 x => .ok (.arr0 (npRecip x))
  | .arr1 xs => .ok (.arr1 (xs.map npRecip))
  | .arr2 xss => .ok (.arr2 (xss.map fun row => row.map npRecip))
  | v => .error (.typeError (unsupportedDivMsg v))

/-- `uniform(d)`: `np.ones(d.shape) / d.shape[-1]`, falling back to
`np.ones(d.size) / d.size` when `d.shape[-1]` raises `IndexError`
(a 0-d array's shape is the empty tuple). -/
def uniform (d : PyVal) : Except PyErr PyVal :=
  match d with
  | .arr2 xss =>
      let n := (xss.headD []).length
      .ok (.arr2 (xss.map fun row => row.map fun _ => NpF.val (1 / (n : ℚ))))
  | .arr1 xs => .ok (.arr1 (xs.map fun _ => NpF.val (1 / (xs.length : ℚ))))
  | .arr0 _ => .ok (.arr1 [NpF.val 1])
  | v => .error (.typeError (arrayLikeMsg v))

/-! ## os.path.splitext

`posixpath.splitext(p)` splits off the final extension: the part of the
basename from its last dot on, unless every character of the basename before
that dot is itself a dot (leading dots of a filename never start an
extension). -/

/-- Index of the last occurrence of `c` in `cs`, if any. -/
def lastIdxOf (cs : List Char) (c : Char) : Option Nat :=
  (cs.enum.filter fun p => p.2 = c).map (·.1) |>.getLast?

/-- Model of Python `os.path.splitext`. -/
def splitext (p : String) : String × String :=
  let cs := p.toList
  match lastIdxOf cs '.' with
  | Option.none => (p, "")
  | some d =>
    let start := match lastIdxOf cs '/' with
      | Option.none => 0
      | some i => i + 1
    if start ≤ d ∧ ((cs.drop start).take (d - start)).any (· ≠ '.') then
      (⟨cs.take d⟩, ⟨cs.drop d⟩)
    else (p, "")

/-! ## File-suffix checks

The source has no single resolver; each entry point re-checks its own
suffix.  These are the three checks of `parcel_to_vertex`,
`export_cifti_mapping` and `mask_medial_wall`, plus the `load_data`
extension dispatch. -/

/-- Message of the `TypeError` that `parcel_to_vertex` raises. -/
def parcelExtMsg : String :=
  "Image file must be a parcellated scalar file with extension .pscalar.nii"

/-- `parcel_to_vertex`'s suffix check: the image must end in exactly
`.pscalar.nii`. -/
def parcelExtCheck (image : String) : Except PyErr Unit :=
  let p1 := splitext image
  let p2 := splitext p1.1
  if p1.2 ≠ ".nii" ∨ p2.2 ≠ ".pscalar" then .error (.typeError parcelExtMsg)
  else .ok ()

/-- Message of the `TypeError` that `export_cifti_mapping` raises. -/
def denseExtMsg : String := "Image file must be a dense NIFTI file "

/-- `export_cifti_mapping`'s suffix check: `ext1 != ".nii" or ext2[1] != "d"`.
Python's `or` short-circuits, so `ext2[1]` is only evaluated when `ext1`
is `.nii`; an `ext2` shorter than two characters then raises a raw
`IndexError`. -/
def denseExtCheck (image : String) : Except PyErr Unit :=
  let p1 := splitext image
  let p2 := splitext p1.1
  if p1.2 ≠ ".nii" then .error (.typeError denseExtMsg)
  else
    match p2.2.toList.get? 1 with
    | Option.none => .error .indexError
    | some c => if c ≠ 'd' then .error (.typeError denseExtMsg) else .ok ()

/-- Message of the `TypeError` that `mask_medial_wall` raises. -/
def dscalarExtMsg : String :=
  "Image file must be a dense scalar file with extension .dscalar.nii"

/-- `mask_medial_wall`'s suffix check: the image must end in exactly
`.dscalar.nii`. -/
def dscalarExtCheck (image : String) : Except PyErr Unit :=
  let p1 := splitext image
  let p2 := splitext p1.1
  if p1.2 ≠ ".nii" ∨ p2.2 ≠ ".dscalar" then .error (.typeError dscalarExtMsg)
  else .ok ()

/-- The two raw-decode branches of `load_data`. -/
inductive LoadKind where
  | gifti
  | nifti
  deriving Repr, DecidableEq

/-- `load_data`'s extension dispatch: `.gii` loads GIFTI, `.nii` loads NIFTI,
anything else raises `TypeError`. -/
def load_data_branch (f : String) : Except PyErr LoadKind :=
  let ext := (splitext f).2
  if ext = ".gii" then .ok .gifti
  else if ext = ".nii" then .ok .nifti
  else .error (.typeError ("Unrecognized file type: " ++ f))

/-! ## XML documents

`xml.etree` elements: a tag, an attribute dict, optional text, children.
`Element.iter()` yields the element itself and all descendants in document
order; the source's `parent_map = {c: p for p in root.iter() for c in p}`
maps every non-root node to its unique parent, which the traversal below
carries directly. -/

/-- An XML element. -/
inductive XNode where
  | mk (tag : String) (attrib : List (String × String)) (text : Option String)
       (children : List XNode)

def XNode.tag : XNode → String
  | .mk t _ _ _ => t

def XNode.attrib : XNode → List (String × String)
  | .mk _ a _ _ => a

def XNode.text : XNode → Option String
  | .mk _ _ tx _ => tx

def XNode.children : XNode → List XNode
  | .mk _ _ _ cs => cs

mutual

/-- Document-order (preorder) list of all nodes of a tree, each with its
parent (`Option.none` for the root, which `parent_map` does not contain). -/
def withParents (p : Option XNode) : XNode → List (XNode × Option XNode)
  | .mk t a tx cs =>
      (XNode.mk t a tx cs, p) :: withParentsList (some (XNode.mk t a tx cs)) cs

/-- `withParents` mapped over a list of siblings. -/
def withParentsList (p : Option XNode) : List XNode → List (XNode × Option XNode)
  | [] => []
  | c :: cs => withParents p c ++ withParentsList p cs

end

/-- `root.iter(tag)`: all nodes with the given tag, in document order. -/
def iterTag (root : XNode) (tag : String) : List XNode :=
  (withParents Option.none root).filterMap fun pr =>
    if pr.1.tag = tag then some pr.1 else Option.none

/-- `dict(node.attrib)[k]`: `KeyError` when the attribute is absent. -/
def getAttr (n : XNode) (k : String) : Except PyErr String :=
  match n.attrib.lookup k with
  | some v => .ok v
  | Option.none => .error (.keyError k)

/-! ## Python dict assignment and int() -/

/-- `d[k] = v` on a Python dict kept as an insertion-ordered association
list: an existing key keeps its position and gets the new value, a new key
is appended. -/
def dictAssign {α β : Type} [BEq α] (d : List (α × β)) (k : α) (v : β) :
    List (α × β) :=
  if d.any fun p => p.1 == k then
    d.map fun p => if p.1 == k then (k, v) else p
  else d ++ [(k, v)]

/-- Value of a list of decimal digits. -/
def digitsVal (cs : List Char) : ℕ :=
  cs.foldl (fun a c => a * 10 + (c.toNat - 48)) 0

/-- Python `s.strip()` applied to the character list: drop surrounding
whitespace. -/
def pyStrip (s : String) : List Char :=
  ((s.toList.dropWhile Char.isWhitespace).reverse.dropWhile
    Char.isWhitespace).reverse

/-- Python `int(s)` on a string: surrounding whitespace is stripped, then an
optional sign followed by at least one digit; anything else raises
`ValueError`. -/
def pyIntOfString (s : String) : Except PyErr Int :=
  let cs := pyStrip s
  let signed : Int × List Char :=
    match cs with
    | '-' :: rest => (-1, rest)
    | '+' :: rest => (1, rest)
    | _ => (1, cs)
  if signed.2 ≠ [] ∧ signed.2.all Char.isDigit then
    .ok (signed.1 * digitsVal signed.2)
  else .error (.valueError ("invalid literal for int() with base 10: " ++ s))

/-- Split a character list at every character satisfying `f`, keeping empty
fragments (the behaviour of Python `split` with an explicit separator). -/
def splitFragments (f : Char → Bool) (cur : List Char) :
    List Char → List String
  | [] => [String.mk cur]
  | x :: rest =>
      if f x then String.mk cur :: splitFragments f [] rest
      else splitFragments f (cur ++ [x]) rest

/-- Python `s.split(' ')`: split on every single space, keeping empty
fragments. -/
def splitSpace (s : String) : List String :=
  splitFragments (fun c => c = ' ') [] s.toList

/-- Python `s.split()` (no argument): split on whitespace, with no empty
fragments. -/
def pySplitWs (s : String) : List String :=
  (splitFragments Char.isWhitespace [] s.toList).filter fun t => t ≠ ""

/-! ## parcel_to_vertex -/

/-- The walker's result: `mapping = dict.fromkeys(['Subcortex', 'CortexLeft',
'CortexRight'])` with each key set to a fresh dict, so the three keys are
always present.  Cortex entries map a parcel ordinal to its vertex list;
subcortex entries map a parcel ordinal to an (n,3) array of voxel
triples. -/
structure CiftiMapping where
  Subcortex : List (Nat × List (List Int))
  CortexLeft : List (Nat × List Int)
  CortexRight : List (Nat × List Int)
  deriving Repr, DecidableEq

/-- The `Name` attribute of every `Parcel` node, in document order (the
values the `for node in root.iter("Parcel")` loop reads). -/
def parcelNames (root : XNode) : Except PyErr (List String) :=
  (iterTag root "Parcel").mapM fun n => getAttr n "Name"

/-- The ordinal-assignment loop body: `plabel2idx[plabel] = idx; idx += 1`
over the list of parcel names. -/
def assignOrdinalsGo (acc : List (String × Nat)) (idx : Nat) :
    List String → List (String × Nat)
  | [] => acc
  | n :: rest => assignOrdinalsGo (dictAssign acc n idx) (idx + 1) rest

/-- `plabel2idx` as a function of the parcel-name sequence: each name is
assigned the next ordinal; a repeated name is silently overwritten with its
later ordinal (Python dict assignment), and the counter still advances. -/
def assignOrdinals (names : List String) : List (String × Nat) :=
  assignOrdinalsGo [] 0 names

/-- The `plabel2idx` map built by `parcel_to_vertex` from the document. -/
def plabel2idx (root : XNode) : Except PyErr (List (String × Nat)) :=
  (parcelNames root).map assignOrdinals

/-- One iteration of the `for node in root.iter('Vertices')` loop: resolve
the owning parcel through the parent map, read `BrainStructure`, parse the
text with `split(' ')` and `int`, and file the vertex list under the
parcel's ordinal in the matching cortex dict; any other structure value is
a fatal `ValueError`. -/
def verticesStep (pl : List (String × Nat)) (m : CiftiMapping)
    (pr : XNode × Option XNode) : Except PyErr CiftiMapping := do
  let parentNode ← match pr.2 with
    | some p => Except.ok p
    | Option.none => Except.error (PyErr.keyError pr.1.tag)
  let parcel ← getAttr parentNode "Name"
  let parcelIndex ← match pl.lookup parcel with
    | some i => Except.ok i
    | Option.none => Except.error (PyErr.keyError parcel)
  let st ← getAttr pr.1 "BrainStructure"
  let txt ← match pr.1.text with
    | some t => Except.ok t
    | Option.none => Except.error PyErr.attributeError
  let v ← (splitSpace txt).mapM pyIntOfString
  if st = "CIFTI_STRUCTURE_CORTEX_LEFT" then
    .ok { m with CortexLeft := dictAssign m.CortexLeft parcelIndex v }
  else if st = "CIFTI_STRUCTURE_CORTEX_RIGHT" then
    .ok { m with CortexRight := dictAssign m.CortexRight parcelIndex v }
  else
    .error (.valueError ("Unrecognized structure in image metadata: " ++ st))

/-- `np.array(l).reshape(-1, 3)`: groups a flat integer list into triples;
numpy raises `ValueError` when the length is not a multiple of 3. -/
def chunks3 : List Int → List (List Int)
  | a :: b :: c :: rest => [a, b, c] :: chunks3 rest
  | _ => []

/-- Reshape with the divisibility check numpy performs. -/
def reshape3 (l : List Int) : Except PyErr (List (List Int)) :=
  if l.length % 3 = 0 then .ok (chunks3 l)
  else .error (.valueError "cannot reshape array into shape (-1,3)")

/-- One iteration of the `for node in root.iter('VoxelIndicesIJK')` loop:
resolve the owning parcel, parse the text with whitespace `split()` and
`int`, reshape into voxel triples, and file under the parcel's ordinal in
the `Subcortex` dict. -/
def voxelsStep (pl : List (String × Nat)) (m : CiftiMapping)
    (pr : XNode × Option XNode) : Except PyErr CiftiMapping := do
  let parentNode ← match pr.2 with
    | some p => Except.ok p
    | Option.none => Except.error (PyErr.keyError pr.1.tag)
  let parcel ← getAttr parentNode "Name"
  let parcelIndex ← match pl.lookup parcel with
    | some i => Except.ok i
    | Option.none => Except.error (PyErr.keyError parcel)
  let txt ← match pr.1.text with
    | some t => Except.ok t
    | Option.none => Except.error PyErr.attributeError
  let flat ← (pySplitWs txt).mapM pyIntOfString
  let voxels ← reshape3 flat
  .ok { m with Subcortex := dictAssign m.Subcortex parcelIndex voxels }

/-- The XML-walking core of `parcel_to_vertex`, applied to the parsed
metadata document (loading the NIFTI container and its XML extension is the
raw-decode collaborator's job). -/
def parcelToVertexXml (root : XNode) : Except PyErr CiftiMapping := do
  let pl ← plabel2idx root
  let init : CiftiMapping := ⟨[], [], []⟩
  let m1 ← (withParents Option.none root).foldlM
    (fun m pr => if pr.1.tag = "Vertices" then verticesStep pl m pr else .ok m)
    init
  (withParents Option.none root).foldlM
    (fun m pr =>
      if pr.1.tag = "VoxelIndicesIJK" then voxelsStep pl m pr else .ok m)
    m1

/-- `parcel_to_vertex(image)`: the suffix check, then (after the collaborator
loads the file and its XML metadata, here `root`) the document walk. -/
def parcel_to_vertex (image : String) (root : XNode) :
    Except PyErr CiftiMapping := do
  let _ ← parcelExtCheck image
  parcelToVertexXml root

/-! ## get_hemisphere -/

/-- Message of the `ValueError` that `get_hemisphere` raises on an
unidentified structure value. -/
def hemisphereErrMsg (surface : String) : String :=
  "\nUnidentified structure in surface file metadata.\nSurface file: "
    ++ surface

/-- `get_hemisphere(surface)` on the parsed metadata document of the
surface's first data array: `structure = root[0][1].text`, which raises a
raw `IndexError` when those children are missing (this line is outside the
`try`), then returns the text when it is `CortexRight` or `CortexLeft` and
raises `ValueError` otherwise.  The source's `except IndexError or
AttributeError` clause guards only the comparison block, which cannot raise
either, so it never fires. -/
def get_hemisphere (surface : String) (root : XNode) : Except PyErr String :=
  match root.children.get? 0 with
  | Option.none => .error .indexError
  | some c0 =>
    match c0.children.get? 1 with
    | Option.none => .error .indexError
    | some c1 =>
      if c1.text = some "CortexRight" then .ok "CortexRight"
      else if c1.text = some "CortexLeft" then .ok "CortexLeft"
      else .error (.valueError (hemisphereErrMsg surface))

/-! ## export_cifti_mapping

The external `wb_command -cifti-export-dense-mapping` call is modelled as a
function from (image, structure) to an exit code plus the parsed rows of the
flat-text table it wrote (`pd.read_table` keyed by the first column, the
CIFTI index; an empty file has no rows — the subcortex table's leading
string-label column is not modelled, as nothing under study reads it).  The
scratch-directory state is a list of the directories `mkdtemp` has created,
threaded in and out explicitly. -/

/-- Result of one `subprocess.run` of the export tool for one structure. -/
structure ToolResult where
  returncode : Nat
  rows : List (Nat × List Int)
  deriving Repr, DecidableEq

/-- The external tool's behaviour: image path and structure name to
outcome. -/
abbrev Tool : Type := String → String → ToolResult

/-- The `structures` dict's keys, in insertion (= iteration) order. -/
def exportStructures : List String := ["Subcortex", "CortexLeft", "CortexRight"]

/-- The `structures` dict's command fragments. -/
def cmdTemplate : String → String
  | "Subcortex" => " -volume-all '\x7b\x7d' -structure "
  | "CortexLeft" => "-surface CORTEX_LEFT '\x7b\x7d' "
  | "CortexRight" => "-surface CORTEX_RIGHT '\x7b\x7d' "
  | _ => ""

/-- Message of the `RuntimeError` raised for an exit-0-but-empty output file
(the source formats the image path into both `Input file` and `Output
file`, and the unformatted command template into `Attempted command`). -/
def emptyFileMsg (image s : String) : String :=
  "\nFile created by Connectome Workbench is empty.\nInput file: " ++ image
    ++ "\nOutput file: " ++ image ++ "\nAttempted command: " ++ cmdTemplate s

/-- Message of the `RuntimeError` raised when no structure produced a
file. -/
def emptyMappingMsg (image : String) : String :=
  "\nNo files were created by Connectome Workbench.\nImage file: " ++ image
    ++ "\n"

/-- The mapping tables `export_cifti_mapping` returns, keyed by structure
name in iteration order. -/
abbrev ExportData : Type := List (String × List (Nat × List Int))

/-- The `for s, cmd in structures.items()` loop: a nonzero exit status skips
the structure, exit 0 with an empty output file raises `RuntimeError`, and
a usable output is parsed and recorded. -/
def exportLoop (tool : Tool) (image : String) :
    List String → Except PyErr ExportData
  | [] => .ok []
  | s :: rest =>
    let r := tool image s
    if r.returncode ≠ 0 then exportLoop tool image rest
    else if r.rows = [] then .error (.runtimeError (emptyFileMsg image s))
    else (exportLoop tool image rest).map fun d => (s, r.rows) :: d

/-- `export_cifti_mapping` after its suffix check: the structure loop
followed by the `if not len(structs_present)` check. -/
def exportPure (tool : Tool) (image : String) : Except PyErr ExportData :=
  match exportLoop tool image exportStructures with
  | .error e => .error e
  | .ok [] => .error (.runtimeError (emptyMappingMsg image))
  | .ok d => .ok d

/-- The value `export_cifti_mapping` returns or the exception it raises,
which does not depend on the scratch state. -/
def exportResult (tool : Tool) (image : String) : Except PyErr ExportData :=
  match denseExtCheck image with
  | .error e => .error e
  | .ok _ => exportPure tool image

/-- Existing scratch directories (the filesystem state the function
touches). -/
abbrev FsState : Type := List String

/-- `mkdtemp()`: a fresh private directory name. -/
def freshDir (fs : FsState) : String := "/tmp/tmp" ++ toString fs.length

/-- The scratch state after one call: the suffix check runs before
`mkdtemp`, so a failed check creates nothing; on every other path the
directory `mkdtemp` created stays, because the source has no cleanup
call. -/
def scratchDirs (image : String) (fs : FsState) : FsState :=
  match denseExtCheck image with
  | .error _ => fs
  | .ok _ => fs ++ [freshDir fs]

/-- `export_cifti_mapping(image)` with the scratch state threaded through:
the returned-or-raised value (`exportResult`) does not read the scratch
state, and the scratch state (`scratchDirs`) does not depend on the tool's
outcomes — only on whether the suffix check passed. -/
def export_cifti_mapping (tool : Tool) (image : String) (fs : FsState) :
    Except PyErr ExportData × FsState :=
  (exportResult tool image, scratchDirs image fs)

/-! ## mask_medial_wall -/

/-- The bundled reference atlas `__dlabel`, a build-time constant path. -/
def dlabelFile : String :=
  "brainsmash/data/Q1-Q6_RelatedValidation210.CorticalAreas_dil_Final_Final_Areas_Group_Colors.32k_fs_LR.dlabel.nii"

/-- What `mask_medial_wall` reads from the surface file through the
raw-decode collaborator: its path, `load_data(surface).shape[0]`, and the
parsed XML metadata of its first data array. -/
structure SurfaceFile where
  sname : String
  nv : Nat
  meta : XNode

/-- `mapping.values.squeeze()`: the single `vertex` column of a cortex
table. -/
def vertexCol (tbl : List (Nat × List Int)) : List Int :=
  tbl.map fun r => r.2.headD 0

/-- A numpy integer index into an array of length `n`: negative indices wrap
once. -/
def normIdx (n : Nat) (v : Int) : Nat :=
  (if v < 0 then v + n else v).toNat

/-- `mask[v] = False` for one index, with numpy's bounds check (`IndexError`
when out of `[-n, n)`). -/
def npSetFalse (mask : List Bool) (v : Int) : Except PyErr (List Bool) :=
  if v < -(mask.length : Int) ∨ (mask.length : Int) ≤ v then .error .indexError
  else .ok (mask.set (normIdx mask.length v) false)

/-- `mask = np.array([True]*nv); mask[mapping.values.squeeze()] = False`. -/
def buildMask (nv : Nat) (verts : List Int) : Except PyErr (List Bool) :=
  verts.foldlM npSetFalse (List.replicate nv true)

/-- `mask_medial_wall(surface, image)`: suffix check, 32k-mesh check,
hemisphere detection, the image's own structure mapping (computed and bound
to `image_structure` but never used), the reference-atlas mapping, and the
mask built from the atlas table of the detected hemisphere. -/
def mask_medial_wall (tool : Tool) (surf : SurfaceFile) (image : String)
    (fs : FsState) : Except PyErr (List Bool) × FsState :=
  match dscalarExtCheck image with
  | .error e => (.error e, fs)
  | .ok _ =>
    if surf.nv ≠ 32492 then
      (.error (.valueError "Surface must be a standard 32k mesh."), fs)
    else
      match get_hemisphere surf.sname surf.meta with
      | .error e => (.error e, fs)
      | .ok surfaceStructure =>
        match export_cifti_mapping tool image fs with
        | (.error e, fs1) => (.error e, fs1)
        | (.ok _imageStructureKeys, fs1) =>
          match export_cifti_mapping tool dlabelFile fs1 with
          | (.error e, fs2) => (.error e, fs2)
          | (.ok mappings, fs2) =>
            match mappings.lookup surfaceStructure with
            | Option.none => (.error (.keyError surfaceStructure), fs2)
            | some tbl => (buildMask surf.nv (vertexCol tbl), fs2)

/-- `returncode == 0` and a nonempty output file: the structure contributes
a table. -/
def usableOutput (tool : Tool) (image s : String) : Bool :=
  (tool image s).returncode == 0 && !(tool image s).rows.isEmpty

/-! ## Concrete test fixtures -/

/-- The spec's example document: one `Parcel` named "A" with a `Vertices`
node for the left cortex and text `"3 7 9"`. -/
def exampleDoc : XNode :=
  .mk "CIFTI" [] Option.none
    [.mk "Parcel" [("Name", "A")] Option.none
      [.mk "Vertices" [("BrainStructure", "CIFTI_STRUCTURE_CORTEX_LEFT")]
        (some "3 7 9") []]]

/-- A document whose `Vertices` text `"3\t7"` is whitespace-separated but
not single-space-separated. -/
def docTab : XNode :=
  .mk "CIFTI" [] Option.none
    [.mk "Parcel" [("Name", "A")] Option.none
      [.mk "Vertices" [("BrainStructure", "CIFTI_STRUCTURE_CORTEX_LEFT")]
        (some "3\t7") []]]

/-- A document with two `Parcel` nodes carrying the same name. -/
def docAA : XNode :=
  .mk "CIFTI" [] Option.none
    [.mk "Parcel" [("Name", "A")] Option.none [],
     .mk "Parcel" [("Name", "A")] Option.none []]

/-- A document with two distinctly named `Parcel` nodes. -/
def docAB : XNode :=
  .mk "CIFTI" [] Option.none
    [.mk "Parcel" [("Name", "A")] Option.none [],
     .mk "Parcel" [("Name", "B")] Option.none []]

/-- Surface metadata whose `root[0][1].text` is `CortexLeft`. -/
def rootL : XNode :=
  .mk "GIFTI" [] Option.none
    [.mk "MD" [] Option.none
      [.mk "Name" [] (some "AnatomicalStructurePrimary") [],
       .mk "Value" [] (some "CortexLeft") []]]

/-- Surface metadata with no children at all: `root[0]` raises
`IndexError`. -/
def rootEmpty : XNode := .mk "GIFTI" [] Option.none []

/-- A tool environment: the bundled atlas exports one left-cortex row
(CIFTI index 0 → vertex 5); every other image exports one row per
structure. -/
def tool0 : Tool := fun img s =>
  if img = dlabelFile then
    (if s = "CortexLeft" then ⟨0, [(0, [5])]⟩ else ⟨1, []⟩)
  else ⟨0, [(0, [7])]⟩

/-- A standard 32,492-vertex left-hemisphere surface file. -/
def surf0 : SurfaceFile := ⟨"s.surf.gii", 32492, rootL⟩

/-- The mask the source builds under `tool0`: all-true except index 5. -/
def mask0 : List Bool := (List.replicate 32492 true).set 5 false

/-- Surface metadata whose structure field holds a non-cortex value. -/
def rootX : XNode :=
  .mk "GIFTI" [] Option.none
    [.mk "MD" [] Option.none
      [.mk "Name" [] (some "AnatomicalStructurePrimary") [],
       .mk "Value" [] (some "Cerebellum") []]]

/-- A tool environment in which every structure is absent (nonzero exit). -/
def toolAbsent : Tool := fun _ _ => ⟨1, []⟩

/-- A tool environment in which the first structure claims success but
writes an empty file. -/
def toolEmptyFile : Tool := fun _ s => if s = "Subcortex" then ⟨0, []⟩ else ⟨1, []⟩

/-! ## Supporting lemmas -/

theorem set_get? {α : Type} :
    ∀ (l : List α) (j i : Nat) (a : α),
      (l.set j a).get? i =
        if i = j ∧ j < l.length then some a else l.get? i := by
  intro l
  induction l with
  | nil => intro j i a; simp
  | cons x xs ih =>
    intro j i a
    cases j with
    | zero =>
      cases i with
      | zero => simp
      | succ k => simp [List.set]
    | succ j' =>
      cases i with
      | zero => simp [List.set]
      | succ k =>
        simp only [List.set, List.get?_cons_succ, List.length_cons]
        rw [ih j' k a]
        by_cases h : k = j' ∧ j' < xs.length
        · rw [if_pos h, if_pos (by omega)]
        · rw [if_neg h, if_neg (by omega)]

theorem replicate_get? {α : Type} (a : α) :
    ∀ (n i : Nat), (List.replicate n a).get? i =
      if i < n then some a else Option.none := by
  intro n
  induction n with
  | zero => intro i; simp
  | succ n ih =>
    intro i
    cases i with
    | zero => simp [List.replicate]
    | succ k =>
      rw [List.replicate, List.get?_cons_succ, ih k]
      by_cases h : k < n
      · rw [if_pos h, if_pos (by omega)]
      · rw [if_neg h, if_neg (by omega)]

theorem npSetFalse_ok (mask : List Bool) (v : Int) (m : List Bool)
    (h : npSetFalse mask v = .ok m) :
    normIdx mask.length v < mask.length ∧
      m = mask.set (normIdx mask.length v) false := by
  unfold npSetFalse at h
  split at h
  · exact absurd h (by simp)
  · rename_i hb
    push_neg at hb
    refine ⟨?_, by simpa using h.symm⟩
    unfold normIdx
    split <;> omega

theorem maskFold_length :
    ∀ (verts : List Int) (mask m : List Bool),
      List.foldlM npSetFalse mask verts = .ok m → m.length = mask.length := by
  intro verts
  induction verts with
  | nil =>
    intro mask m h
    simp only [List.foldlM, pure, Except.pure] at h
    have : m = mask := by simpa using h.symm
    rw [this]
  | cons v vs ih =>
    intro mask m h
    rw [List.foldlM_cons] at h
    cases hx : npSetFalse mask v with
    | error e =>
      rw [hx] at h
      simp only [Bind.bind, Except.bind] at h
      exact absurd h (by simp)
    | ok mask' =>
      rw [hx] at h
      simp only [Bind.bind, Except.bind] at h
      obtain ⟨hlt, hset⟩ := npSetFalse_ok mask v mask' hx
      have := ih mask' m h
      rw [this, hset, List.length_set]

theorem maskFold_get? :
    ∀ (verts : List Int) (mask m : List Bool),
      List.foldlM npSetFalse mask verts = .ok m →
      ∀ i, m.get? i =
        if i ∈ verts.map (normIdx mask.length) then some false
        else mask.get? i := by
  intro verts
  induction verts with
  | nil =>
    intro mask m h i
    simp only [List.foldlM, pure, Except.pure] at h
    have : m = mask := by simpa using h.symm
    simp [this]
  | cons v vs ih =>
    intro mask m h i
    rw [List.foldlM_cons] at h
    cases hx : npSetFalse mask v with
    | error e =>
      rw [hx] at h
      simp only [Bind.bind, Except.bind] at h
      exact absurd h (by simp)
    | ok mask' =>
      rw [hx] at h
      simp only [Bind.bind, Except.bind] at h
      obtain ⟨hlt, hset⟩ := npSetFalse_ok mask v mask' hx
      have hlen : mask'.length = mask.length := by rw [hset, List.length_set]
      have hrec := ih mask' m h i
      rw [hlen] at hrec
      rw [hrec, hset, set_get? mask (normIdx mask.length v) i false]
      by_cases hv : i ∈ vs.map (normIdx mask.length)
      · rw [if_pos hv, if_pos (by simp [List.mem_cons]; right; exact (by simpa using hv))]
      · rw [if_neg hv]
        by_cases hj : i = normIdx mask.length v
        · rw [if_pos ⟨hj, hj ▸ hlt⟩, if_pos (by simp [List.mem_cons]; left; omega)]
        · rw [if_neg (by intro hc; exact hj hc.1),
            if_neg (by simp [List.mem_cons]; refine ⟨by omega, ?_⟩; simpa using hv)]

theorem maskFold_bounds :
    ∀ (verts : List Int) (mask m : List Bool),
      List.foldlM npSetFalse mask verts = .ok m →
      ∀ x ∈ verts.map (normIdx mask.length), x < mask.length := by
  intro verts
  induction verts with
  | nil => intro mask m _ x hx; exact absurd hx (by simp)
  | cons v vs ih =>
    intro mask m h x hx
    rw [List.foldlM_cons] at h
    cases hcase : npSetFalse mask v with
    | error e =>
      rw [hcase] at h
      simp only [Bind.bind, Except.bind] at h
      exact absurd h (by simp)
    | ok mask' =>
      rw [hcase] at h
      simp only [Bind.bind, Except.bind] at h
      obtain ⟨hlt, hset⟩ := npSetFalse_ok mask v mask' hcase
      have hlen : mask'.length = mask.length := by rw [hset, List.length_set]
      rw [List.map_cons, List.mem_cons] at hx
      rcases hx with rfl | hx
      · exact hlt
      · have := ih mask' m h x (by rw [hlen]; exact hx)
        omega

theorem buildMask_ok_eq (nv : Nat) (verts : List Int) (m : List Bool)
    (h : buildMask nv verts = .ok m) :
    m = (List.range nv).map
      (fun i => if i ∈ verts.map (normIdx nv) then false else true) := by
  have hlen0 : (List.replicate nv true).length = nv := List.length_replicate nv true
  apply List.ext
  intro i
  have hget := maskFold_get? verts (List.replicate nv true) m h i
  rw [hlen0] at hget
  rw [hget, List.get?_map]
  by_cases hi : i < nv
  · rw [List.get?_range hi]
    by_cases hmem : i ∈ verts.map (normIdx nv)
    · rw [if_pos hmem]
      simp only [Option.map_some']
      rw [if_pos hmem]
    · rw [if_neg hmem, replicate_get? true nv i, if_pos hi]
      simp only [Option.map_some']
      rw [if_neg hmem]
  · have hnone : (List.range nv).get? i = Option.none := by
      rw [List.get?_eq_none]
      simpa using (by omega : nv ≤ i)
    rw [hnone]
    have hmem : i ∉ verts.map (normIdx nv) := by
      intro hc
      have := maskFold_bounds verts (List.replicate nv true) m h i (by rw [hlen0]; exact hc)
      omega
    rw [if_neg hmem, replicate_get? true nv i, if_neg hi]
    rfl

theorem bool_count_partition :
    ∀ l : List Bool, l.count true + l.count false = l.length := by
  intro l
  induction l with
  | nil => rfl
  | cons b l ih =>
    cases b <;> simp [List.count_cons] <;> omega

theorem count_false_mask_map (nv : Nat) (S : List Nat) (hS : ∀ x ∈ S, x < nv) :
    ((List.range nv).map (fun i => if i ∈ S then false else true)).count false
      = S.dedup.length := by
  have h1 : ((List.range nv).map (fun i => if i ∈ S then false else true)).count false
      = (List.range nv).countP (fun i => decide (i ∈ S)) := by
    rw [List.count, List.countP_map]
    apply List.countP_congr
    intro a _
    by_cases h : a ∈ S <;> simp [h]
  rw [h1, List.countP_eq_length_filter]
  have hnodupT : ((List.range nv).filter (fun i => decide (i ∈ S))).Nodup :=
    (List.nodup_range nv).filter _
  have hmemT : ∀ x, x ∈ (List.range nv).filter (fun i => decide (i ∈ S)) ↔ x ∈ S.dedup := by
    intro x
    rw [List.mem_filter, List.mem_range, List.mem_dedup]
    constructor
    · rintro ⟨_, hx⟩; simpa using hx
    · intro hx; exact ⟨hS x hx, by simpa using hx⟩
  have hfin : ((List.range nv).filter (fun i => decide (i ∈ S))).toFinset = S.dedup.toFinset := by
    apply Finset.ext
    intro x
    rw [List.mem_toFinset, List.mem_toFinset]
    exact hmemT x
  calc ((List.range nv).filter (fun i => decide (i ∈ S))).length
      = ((List.range nv).filter (fun i => decide (i ∈ S))).toFinset.card :=
        (List.toFinset_card_of_nodup hnodupT).symm
    _ = S.dedup.toFinset.card := by rw [hfin]
    _ = S.dedup.length := List.toFinset_card_of_nodup (List.nodup_dedup S)

theorem buildMask_count_false (nv : Nat) (verts : List Int) (m : List Bool)
    (h : buildMask nv verts = .ok m) :
    m.count false = (verts.map (normIdx nv)).dedup.length := by
  rw [buildMask_ok_eq nv verts m h]
  apply count_false_mask_map
  intro x hx
  have hlen0 : (List.replicate nv true).length = nv := List.length_replicate nv true
  have := maskFold_bounds verts (List.replicate nv true) m h x (by rw [hlen0]; exact hx)
  omega

theorem buildMask_length (nv : Nat) (verts : List Int) (m : List Bool)
    (h : buildMask nv verts = .ok m) : m.length = nv := by
  have := maskFold_length verts (List.replicate nv true) m h
  simpa using this

theorem buildMask_count_true (nv : Nat) (verts : List Int) (m : List Bool)
    (h : buildMask nv verts = .ok m) :
    m.count true = nv - (verts.map (normIdx nv)).dedup.length := by
  have h1 := bool_count_partition m
  have h2 := buildMask_count_false nv verts m h
  have h3 := buildMask_length nv verts m h
  omega

theorem buildMask_single (nv : Nat) (j : Int) (h0 : 0 ≤ j) (hj : j < (nv : Int)) :
    buildMask nv [j] = .ok ((List.replicate nv true).set j.toNat false) := by
  unfold buildMask
  rw [List.foldlM_cons]
  have hb : ¬(j < -((List.replicate nv true).length : Int) ∨
      ((List.replicate nv true).length : Int) ≤ j) := by
    simp only [List.length_replicate]
    omega
  unfold npSetFalse
  rw [if_neg hb]
  simp only [Bind.bind, Except.bind, normIdx, if_neg (by omega : ¬j < 0),
    List.length_replicate]
  simp [List.foldlM, pure, Except.pure]

theorem dictAssign_of_not_mem {β : Type} (d : List (String × β)) (k : String)
    (v : β) (h : ∀ p ∈ d, p.1 ≠ k) : dictAssign d k v = d ++ [(k, v)] := by
  unfold dictAssign
  have hany : (d.any fun p => p.1 == k) = false := by
    rw [List.any_eq_false]
    intro p hp
    simpa using h p hp
  simp [hany]

theorem assignOrdinalsGo_nodup (names : List String) :
    ∀ (acc : List (String × Nat)) (idx : Nat), names.Nodup →
      (∀ n ∈ names, ∀ p ∈ acc, p.1 ≠ n) →
      assignOrdinalsGo acc idx names =
        acc ++ (List.enumFrom idx names).map (fun p => (p.2, p.1)) := by
  induction names with
  | nil => intro acc idx _ _; simp [assignOrdinalsGo]
  | cons n rest ih =>
    intro acc idx hnd hdisj
    rw [assignOrdinalsGo,
      dictAssign_of_not_mem _ _ _ (fun p hp => hdisj n (by simp) p hp),
      ih (acc ++ [(n, idx)]) (idx + 1) hnd.of_cons ?_]
    · rw [List.append_assoc, List.enumFrom_cons]
      simp
    · intro m hm p hp
      rcases List.mem_append.mp hp with hpa | hpb
      · exact hdisj m (List.mem_cons_of_mem _ hm) p hpa
      · have hpn : p = (n, idx) := by simpa using hpb
        subst hpn
        have hn : n ∉ rest := (List.nodup_cons.mp hnd).1
        intro hc
        have : n = m := hc
        exact hn (this ▸ hm)

theorem assignOrdinals_nodup (names : List String) (h : names.Nodup) :
    assignOrdinals names = names.enum.map (fun p => (p.2, p.1)) := by
  have := assignOrdinalsGo_nodup names [] 0 h (by simp)
  simpa [assignOrdinals, List.enum] using this

theorem exportLoop_ok_shape (tool : Tool) (image : String) :
    ∀ (ss : List String) (d : ExportData), exportLoop tool image ss = .ok d →
      d = (ss.filter (usableOutput tool image)).map
            (fun s => (s, (tool image s).rows)) := by
  intro ss
  induction ss with
  | nil => intro d hd; simp [exportLoop] at hd; simp [hd.symm]
  | cons s rest ih =>
    intro d hd
    rw [exportLoop] at hd
    by_cases h0 : (tool image s).returncode ≠ 0
    · rw [if_pos h0] at hd
      have hu : usableOutput tool image s = false := by
        simp [usableOutput]
        omega
      rw [List.filter_cons, hu]
      exact ih d hd
    · rw [if_neg h0] at hd
      push_neg at h0
      by_cases hr : (tool image s).rows = []
      · rw [if_pos hr] at hd; exact absurd hd (by simp)
      · rw [if_neg hr] at hd
        cases hx : exportLoop tool image rest with
        | error e => rw [hx] at hd; exact absurd hd (by simp [Except.map])
        | ok d' =>
          rw [hx] at hd
          simp [Except.map] at hd
          have hu : usableOutput tool image s = true := by
            simp [usableOutput, h0]
            exact hr
          rw [List.filter_cons, hu]
          simp [hd.symm, ih d' hx]

theorem exportLoop_empty_file (tool : Tool) (image : String) :
    ∀ (ss : List String),
      (∃ s ∈ ss, (tool image s).returncode = 0 ∧ (tool image s).rows = []) →
      ∃ s ∈ ss, (tool image s).returncode = 0 ∧ (tool image s).rows = [] ∧
        exportLoop tool image ss =
          .error (.runtimeError (emptyFileMsg image s)) := by
  intro ss
  induction ss with
  | nil => rintro ⟨s, hs, _⟩; exact absurd hs (by simp)
  | cons s rest ih =>
    rintro ⟨t, ht, h0, hr⟩
    rw [List.mem_cons] at ht
    by_cases hs0 : (tool image s).returncode ≠ 0
    · have htr : t ∈ rest := by
        rcases ht with rfl | h
        · exact absurd h0 hs0
        · exact h
      obtain ⟨u, hu, hu0, hur, hloop⟩ := ih ⟨t, htr, h0, hr⟩
      exact ⟨u, List.mem_cons_of_mem _ hu, hu0, hur,
        by rw [exportLoop, if_pos hs0]; exact hloop⟩
    · push_neg at hs0
      by_cases hsr : (tool image s).rows = []
      · refine ⟨s, by simp, hs0, hsr, ?_⟩
        rw [exportLoop]
        simp [hs0, hsr]
      · have htr : t ∈ rest := by
          rcases ht with rfl | h
          · exact absurd hr hsr
          · exact h
        obtain ⟨u, hu, hu0, hur, hloop⟩ := ih ⟨t, htr, h0, hr⟩
        refine ⟨u, List.mem_cons_of_mem _ hu, hu0, hur, ?_⟩
        rw [exportLoop, if_neg (show ¬(tool image s).returncode ≠ 0 by omega),
          if_neg hsr, hloop]
        simp [Except.map]

theorem exportLoop_all_absent (tool : Tool) (image : String) :
    ∀ (ss : List String), (∀ s ∈ ss, (tool image s).returncode ≠ 0) →
      exportLoop tool image ss = .ok [] := by
  intro ss
  induction ss with
  | nil => intro _; rfl
  | cons s rest ih =>
    intro h
    rw [exportLoop, if_pos (h s (by simp))]
    exact ih (fun t ht => h t (List.mem_cons_of_mem _ ht))

theorem exportLoop_no_bad_isOk (tool : Tool) (image : String) :
    ∀ (ss : List String),
      (∀ s ∈ ss, (tool image s).returncode = 0 → (tool image s).rows ≠ []) →
      (exportLoop tool image ss).isOk = true := by
  intro ss
  induction ss with
  | nil => intro _; rfl
  | cons s rest ih =>
    intro h
    rw [exportLoop]
    by_cases h0 : (tool image s).returncode ≠ 0
    · rw [if_pos h0]; exact ih (fun t ht => h t (List.mem_cons_of_mem _ ht))
    · push_neg at h0
      rw [if_neg (by omega)]
      rw [if_neg (h s (by simp) h0)]
      have := ih (fun t ht => h t (List.mem_cons_of_mem _ ht))
      cases hx : exportLoop tool image rest with
      | error e => rw [hx] at this; simp [Except.isOk, Except.toBool] at this
      | ok d => simp [hx, Except.map, Except.isOk, Except.toBool]

/-! ## Claim C4: invdist and zero distances -/

/-- C4 (code_bug evidence): evaluated at the failing input
`np.array([0., 2., 4.])`, `invdist` returns `[inf, 0.5, 0.25]` silently —
no division-by-zero error is raised, contradicting both the claim and the
function's own docstring (`Raises ZeroDivisionError: d includes zero
value`); on `np.array([2., 4.])` it returns `[0.5, 0.25]` as the claim
says. -/
theorem c4_invdist_silent_infinity :
    invdist (.arr1 [.val 0, .val 2, .val 4]) =
      .ok (.arr1 [.inf, .val (1 / 2), .val (1 / 4)]) ∧
    invdist (.arr1 [.val 2, .val 4]) =
      .ok (.arr1 [.val (1 / 2), .val (1 / 4)]) := by
  constructor <;> norm_num [invdist, npRecip, npDiv]

/-! ## Claim C5: suffix-only file classification -/

/-- C5 (counterexample): the claim says a path ending in `.ptseries.nii` is
accepted by the parcellated-image path, but `parcel_to_vertex` accepts only
the exact suffix `.pscalar.nii` and raises `TypeError` on
`foo.ptseries.nii`. -/
theorem c5_counterexample :
    parcelExtCheck "foo.ptseries.nii" = .error (.typeError parcelExtMsg) := by
  decide

/-- C5 (amended): classification is suffix-only, with these outcomes:
`foo.dlabel.nii` is accepted by the dense-image path (`export_cifti_mapping`
accepts any `.d*.nii`); the parcellated path accepts exactly
`.pscalar.nii`, so `foo.pscalar.nii` passes and `foo.ptseries.nii` is
rejected (by the dense path too, since its second extension does not start
with `d`); `foo.surf.gii` takes `load_data`'s GIFTI branch; and `foo.txt`
is rejected with a `TypeError` by all three entry points. -/
theorem c5_suffix_classification :
    denseExtCheck "foo.dlabel.nii" = .ok () ∧
    dscalarExtCheck "foo.dscalar.nii" = .ok () ∧
    parcelExtCheck "foo.pscalar.nii" = .ok () ∧
    parcelExtCheck "foo.ptseries.nii" = .error (.typeError parcelExtMsg) ∧
    denseExtCheck "foo.ptseries.nii" = .error (.typeError denseExtMsg) ∧
    load_data_branch "foo.surf.gii" = .ok .gifti ∧
    parcelExtCheck "foo.txt" = .error (.typeError parcelExtMsg) ∧
    denseExtCheck "foo.txt" = .error (.typeError denseExtMsg) ∧
    load_data_branch "foo.txt" =
      .error (.typeError "Unrecognized file type: foo.txt") := by
  refine ⟨?_, ?_, ?_, ?_, ?_, ?_, ?_, ?_, ?_⟩ <;> decide

/-! ## Claim C7: the Vertices walk -/

/-- C7 (counterexample): `docTab`'s single `Vertices` node has text
`"3\t7"` — a whitespace-separated integer list — yet the walker raises
`ValueError` instead of yielding `[3, 7]`, because the source splits on
single spaces (`split(' ')`), not on whitespace. -/
theorem c7_counterexample :
    parcelToVertexXml docTab =
      .error (.valueError "invalid literal for int() with base 10: 3\t7") := by
  decide

/-- C7 (amended): the walker's result always carries exactly the three
structure keys, with absent structures as empty associations; each
`Vertices` node's text is split on single spaces (not on general
whitespace) and each fragment parsed as a Python int, entered under the
owning parcel's ordinal.  On the claim's example document the walker yields
`{CortexLeft: {0: [3,7,9]}, CortexRight: {}, Subcortex: {}}`. -/
theorem c7_walker_example :
    parcelToVertexXml exampleDoc =
      .ok { Subcortex := [], CortexLeft := [(0, [3, 7, 9])], CortexRight := [] } ∧
    splitSpace "3 7 9" = ["3", "7", "9"] ∧
    splitSpace "3\t7" = ["3\t7"] := by
  refine ⟨?_, ?_, ?_⟩ <;> decide

/-! ## Claim C8: kernel input rejection -/

/-- C8 (counterexample): the claim says each of the four kernels rejects a
Python scalar, but `invdist(2)` returns `0.5` — a value, not an error
(`1./2` is plain Python division and needs no array attribute). -/
theorem c8_counterexample : invdist (.int 2) = .ok (.float (1 / 2)) := by
  norm_num [invdist]

/-- C8 (amended): `gaussian`, `exp` and `uniform` reject Python scalars,
strings and `None` with the `expected array_like` `TypeError` (their
2-dim expression raises `AttributeError`, re-raised as `TypeError`);
`invdist` rejects non-numeric input only through Python's own
`unsupported operand` `TypeError`, and accepts a numeric scalar, returning
its reciprocal (raising `ZeroDivisionError` only at scalar zero). -/
theorem c8_kernel_input_rejection (e : NpF → NpF) (n : ℤ) (q : ℚ) (s : String) :
    gaussian e (.int n) = .error (.typeError (arrayLikeMsg (.int n))) ∧
    gaussian e (.float q) = .error (.typeError (arrayLikeMsg (.float q))) ∧
    gaussian e (.str s) = .error (.typeError (arrayLikeMsg (.str s))) ∧
    gaussian e .none = .error (.typeError (arrayLikeMsg .none)) ∧
    exp e (.int n) = .error (.typeError (arrayLikeMsg (.int n))) ∧
    exp e (.float q) = .error (.typeError (arrayLikeMsg (.float q))) ∧
    exp e (.str s) = .error (.typeError (arrayLikeMsg (.str s))) ∧
    exp e .none = .error (.typeError (arrayLikeMsg .none)) ∧
    uniform (.int n) = .error (.typeError (arrayLikeMsg (.int n))) ∧
    uniform (.float q) = .error (.typeError (arrayLikeMsg (.float q))) ∧
    uniform (.str s) = .error (.typeError (arrayLikeMsg (.str s))) ∧
    uniform .none = .error (.typeError (arrayLikeMsg .none)) ∧
    invdist (.str s) = .error (.typeError (unsupportedDivMsg (.str s))) ∧
    invdist .none = .error (.typeError (unsupportedDivMsg .none)) ∧
    invdist (.int n) =
      (if n = 0 then .error .zeroDivisionError else .ok (.float (1 / (n : ℚ)))) ∧
    invdist (.float q) =
      (if q = 0 then .error .zeroDivisionError else .ok (.float (1 / q))) := by
  refine ⟨rfl, rfl, rfl, rfl, rfl, rfl, rfl, rfl, rfl, rfl, rfl, rfl, rfl,
    rfl, rfl, rfl⟩

/-! ## Claim C2: ordinal assignment (counterexample) -/

/-- C2 (counterexample): on a document with two `Parcel` nodes both named
"A", the walk does not fail with any duplicate-name error — it succeeds —
and the resulting assignment maps "A" to ordinal 1, so the value set has a
gap at 0 and the name-to-ordinal map is not a bijection onto
`{0, ..., n_parcels - 1}`. -/
theorem c2_counterexample :
    plabel2idx docAA = .ok [("A", 1)] ∧
    (parcelToVertexXml docAA).isOk = true := by
  refine ⟨?_, ?_⟩ <;> decide

/-! ## Claim C3: scratch cleanup (counterexample) -/

/-- C3 (counterexample): a successful `export_cifti_mapping` call starting
from an empty scratch state returns with its private scratch directory
still present — the claim's required cleanup never happens. -/
theorem c3_counterexample :
    (export_cifti_mapping tool0 "img.dscalar.nii" []).1.isOk = true ∧
    (export_cifti_mapping tool0 "img.dscalar.nii" []).2 = ["/tmp/tmp0"] := by
  refine ⟨?_, ?_⟩ <;> decide

/-! ## Claim C9: hemisphere detection (counterexample) -/

/-- C9 (counterexample): on surface metadata lacking the expected field
(a root with no children), `get_hemisphere` propagates a raw `IndexError`
from `root[0][1]` — not the `ValueError` the claim requires — because that
line runs outside the `try` block. -/
theorem c9_counterexample :
    get_hemisphere "s.surf.gii" rootEmpty = .error .indexError := by
  decide

/-- C9 (amended): a returned value is exactly `CortexLeft` or `CortexRight`;
any other value of the structure field is a fatal `ValueError` naming the
surface file; but absence of the expected field (missing `root[0]` or
`root[0][1]`) raises a raw, unclassified `IndexError` instead. -/
theorem c9_hemisphere_outcomes (surface : String) (root : XNode) :
    (∀ h, get_hemisphere surface root = .ok h →
        h = "CortexLeft" ∨ h = "CortexRight") ∧
    (root.children.get? 0 = Option.none →
        get_hemisphere surface root = .error .indexError) ∧
    (∀ c0, root.children.get? 0 = some c0 → c0.children.get? 1 = Option.none →
        get_hemisphere surface root = .error .indexError) ∧
    (∀ c0 c1, root.children.get? 0 = some c0 → c0.children.get? 1 = some c1 →
        c1.text ≠ some "CortexLeft" → c1.text ≠ some "CortexRight" →
        get_hemisphere surface root =
          .error (.valueError (hemisphereErrMsg surface))) := by
  refine ⟨?_, ?_, ?_, ?_⟩
  · intro h hok
    cases h0 : root.children.get? 0 with
    | none => simp only [get_hemisphere, h0] at hok; exact absurd hok (by simp)
    | some c0 =>
      cases h1 : c0.children.get? 1 with
      | none =>
        simp only [get_hemisphere, h0, h1] at hok
        exact absurd hok (by simp)
      | some c1 =>
        simp only [get_hemisphere, h0, h1] at hok
        by_cases hr : c1.text = some "CortexRight"
        · simp [hr] at hok; right; exact hok.symm
        · by_cases hl : c1.text = some "CortexLeft"
          · simp [hr, hl] at hok; left; exact hok.symm
          · simp [hr, hl] at hok
  · intro h0; simp only [get_hemisphere, h0]
  · intro c0 h0 h1; simp only [get_hemisphere, h0, h1]
  · intro c0 c1 h0 h1 hl hr
    simp only [get_hemisphere, h0, h1]; simp [hl, hr]

/-- C9 (witness): the amended theorem applied at the concrete fixtures — a
non-cortex structure value gives the `ValueError`, a missing field gives
the raw `IndexError`. -/
theorem c9_hemisphere_outcomes_witness :
    get_hemisphere "s.surf.gii" rootX =
      .error (.valueError (hemisphereErrMsg "s.surf.gii")) ∧
    get_hemisphere "s.surf.gii" rootEmpty = .error .indexError := by
  constructor
  · exact (c9_hemisphere_outcomes "s.surf.gii" rootX).2.2.2 _ _ rfl rfl
      (by decide) (by decide)
  · exact (c9_hemisphere_outcomes "s.surf.gii" rootEmpty).2.1 rfl

/-! ## Claim C2 (amended): ordinal assignment bijection -/

/-- C2 (amended): ordinals are assigned 0, 1, 2, ... in document order; when
the parcel names are pairwise distinct, `plabel2idx` is exactly the
enumeration of the names, a bijection between names and
`{0, ..., n_parcels - 1}` (the keys are the names and the values are
`range n`); a repeated name is not rejected — the walk continues and the
name silently keeps only its last ordinal (see the counterexample). -/
theorem c2_ordinal_bijection (root : XNode) (names : List String)
    (h : parcelNames root = .ok names) (hnd : names.Nodup) :
    plabel2idx root = .ok (names.enum.map fun p => (p.2, p.1)) ∧
    (names.enum.map fun p => (p.2, p.1)).map Prod.fst = names ∧
    (names.enum.map fun p => (p.2, p.1)).map Prod.snd =
      List.range names.length := by
  refine ⟨?_, ?_, ?_⟩
  · simp [plabel2idx, h, Except.map, assignOrdinals_nodup names hnd]
  · rw [List.map_map]
    have hf : (Prod.fst ∘ fun p : ℕ × String => (p.2, p.1)) = Prod.snd := rfl
    rw [hf, List.enum_map_snd]
  · rw [List.map_map]
    have hf : (Prod.snd ∘ fun p : ℕ × String => (p.2, p.1)) = Prod.fst := rfl
    rw [hf, List.enum_map_fst]

/-- C2 (witness): on a document with parcels "A", "B" the assignment is the
bijection `A ↦ 0, B ↦ 1`. -/
theorem c2_ordinal_bijection_witness :
    plabel2idx docAB = .ok [("A", 0), ("B", 1)] ∧
    [(("A" : String), (0 : Nat)), ("B", 1)].map Prod.fst = ["A", "B"] ∧
    [(("A" : String), (0 : Nat)), ("B", 1)].map Prod.snd = List.range 2 := by
  have h := c2_ordinal_bijection docAB ["A", "B"] (by decide) (by decide)
  exact ⟨h.1, h.2.1, h.2.2⟩

/-! ## Claim C3 (amended): scratch directories persist -/

/-- C3 (amended): `export_cifti_mapping` never removes its scratch
directory: when the suffix check fails no directory has been created yet,
and on every other exit path — success, tool failure, contract violation or
empty mapping — the directory `mkdtemp` created is still present in the
scratch state when the call returns or raises. -/
theorem c3_scratch_persists (tool : Tool) (image : String) (fs : FsState) :
    (export_cifti_mapping tool image fs).2 =
      (if (denseExtCheck image).isOk then fs ++ [freshDir fs] else fs) ∧
    ((denseExtCheck image).isOk = true →
      freshDir fs ∈ (export_cifti_mapping tool image fs).2) := by
  constructor
  · unfold export_cifti_mapping scratchDirs
    cases h : denseExtCheck image <;> simp [Except.isOk, Except.toBool]
  · intro h
    unfold export_cifti_mapping scratchDirs
    cases hx : denseExtCheck image
    · rw [hx] at h; simp [Except.isOk, Except.toBool] at h
    · simp

/-! ## Claim C6: the exporter's error contract -/

/-- C6: for every tool behaviour, (i) a successful export returns exactly
the tables of the structures with exit 0 and nonempty output — a structure
with nonzero exit contributes no table and causes no error; (ii) any
structure with exit 0 and an empty file makes the whole call fail with the
empty-file `RuntimeError` naming the input image; (iii) when every
structure exits nonzero the call fails with the empty-mapping
`RuntimeError` naming the input image; (iv) when no structure violates the
contract and at least one is present, the call succeeds. -/
theorem c6_export_error_contract (tool : Tool) (image : String) :
    (∀ d, exportPure tool image = .ok d →
      d = (exportStructures.filter (usableOutput tool image)).map
            (fun s => (s, (tool image s).rows))) ∧
    ((∃ s ∈ exportStructures,
        (tool image s).returncode = 0 ∧ (tool image s).rows = []) →
      ∃ s ∈ exportStructures,
        (tool image s).returncode = 0 ∧ (tool image s).rows = [] ∧
        exportPure tool image =
          .error (.runtimeError (emptyFileMsg image s))) ∧
    ((∀ s ∈ exportStructures, (tool image s).returncode ≠ 0) →
      exportPure tool image =
        .error (.runtimeError (emptyMappingMsg image))) ∧
    ((∀ s ∈ exportStructures,
        (tool image s).returncode = 0 → (tool image s).rows ≠ []) →
      (∃ s ∈ exportStructures, (tool image s).returncode = 0) →
      (exportPure tool image).isOk = true) := by
  refine ⟨?_, ?_, ?_, ?_⟩
  · intro d hd
    unfold exportPure at hd
    cases hx : exportLoop tool image exportStructures with
    | error e => rw [hx] at hd; exact absurd hd (by simp)
    | ok d' =>
      rw [hx] at hd
      cases d' with
      | nil => exact absurd hd (by simp)
      | cons a l =>
        simp at hd
        rw [hd.symm]
        exact exportLoop_ok_shape tool image _ _ hx
  · intro hex
    obtain ⟨s, hs, h0, hr, hloop⟩ := exportLoop_empty_file tool image _ hex
    exact ⟨s, hs, h0, hr, by unfold exportPure; rw [hloop]⟩
  · intro hall
    unfold exportPure
    rw [exportLoop_all_absent tool image _ hall]
  · rintro hgood ⟨s, hs, h0⟩
    have hok := exportLoop_no_bad_isOk tool image exportStructures hgood
    cases hx : exportLoop tool image exportStructures with
    | error e => rw [hx] at hok; simp [Except.isOk, Except.toBool] at hok
    | ok d =>
      have hd := exportLoop_ok_shape tool image _ _ hx
      have hmem : s ∈ exportStructures.filter (usableOutput tool image) := by
        rw [List.mem_filter]
        refine ⟨hs, ?_⟩
        simp [usableOutput, h0]
        exact hgood s hs h0
      have hne : d ≠ [] := by
        rw [hd]
        intro hc
        rw [List.map_eq_nil] at hc
        rw [hc] at hmem
        exact absurd hmem (by simp)
      unfold exportPure
      rw [hx]
      cases d with
      | nil => exact absurd rfl hne
      | cons a l => simp [Except.isOk, Except.toBool]

/-- C6 (witness): the contract applied at three concrete tool behaviours —
all-absent fails with the empty-mapping error, an exit-0-empty-file
structure fails with the empty-file error, and `tool0` (all structures
usable) succeeds. -/
theorem c6_export_error_contract_witness :
    exportPure toolAbsent "x.dscalar.nii" =
      .error (.runtimeError (emptyMappingMsg "x.dscalar.nii")) ∧
    (∃ s ∈ exportStructures,
      (toolEmptyFile "x.dscalar.nii" s).returncode = 0 ∧
      (toolEmptyFile "x.dscalar.nii" s).rows = [] ∧
      exportPure toolEmptyFile "x.dscalar.nii" =
        .error (.runtimeError (emptyFileMsg "x.dscalar.nii" s))) ∧
    (exportPure tool0 "x.dscalar.nii").isOk = true := by
  refine ⟨?_, ?_, ?_⟩
  · exact (c6_export_error_contract toolAbsent "x.dscalar.nii").2.2.1
      (by decide)
  · exact (c6_export_error_contract toolEmptyFile "x.dscalar.nii").2.1
      ⟨"Subcortex", by decide, by decide, by decide⟩
  · exact (c6_export_error_contract tool0 "x.dscalar.nii").2.2.2
      (by decide) ⟨"Subcortex", by decide, by decide⟩

/-! ## Claim C10: the mask ignores the caller's image -/

/-- C10: for one fixed surface and tool behaviour, any two dense-scalar
images that pass the suffix check and export successfully produce the same
mask: the image's own structure mapping is computed but never used, so the
result depends only on the surface and the bundled reference atlas. -/
theorem c10_mask_image_independent (tool : Tool) (surf : SurfaceFile)
    (i1 i2 : String) (fs1 fs2 : FsState)
    (h1 : dscalarExtCheck i1 = .ok ()) (h2 : dscalarExtCheck i2 = .ok ())
    (h3 : (exportResult tool i1).isOk = true)
    (h4 : (exportResult tool i2).isOk = true) :
    (mask_medial_wall tool surf i1 fs1).1 =
      (mask_medial_wall tool surf i2 fs2).1 := by
  obtain ⟨d1, hd1⟩ : ∃ d, exportResult tool i1 = .ok d := by
    cases hx : exportResult tool i1 with
    | error e => rw [hx] at h3; simp [Except.isOk, Except.toBool] at h3
    | ok d => exact ⟨d, rfl⟩
  obtain ⟨d2, hd2⟩ : ∃ d, exportResult tool i2 = .ok d := by
    cases hx : exportResult tool i2 with
    | error e => rw [hx] at h4; simp [Except.isOk, Except.toBool] at h4
    | ok d => exact ⟨d, rfl⟩
  unfold mask_medial_wall export_cifti_mapping
  rw [h1, h2, hd1, hd2]
  dsimp only
  by_cases hnv : surf.nv ≠ 32492
  · rw [if_pos hnv, if_pos hnv]
  · rw [if_neg hnv, if_neg hnv]
    cases hg : get_hemisphere surf.sname surf.meta with
    | error e => rfl
    | ok hemi =>
      dsimp only
      cases ha : exportResult tool dlabelFile with
      | error e => rfl
      | ok mappings =>
        dsimp only
        cases hl : List.lookup hemi mappings with
        | none => rfl
        | some tbl => rfl

/-- C10 (witness): under `tool0`, two different dense-scalar images give
the same mask. -/
theorem c10_mask_image_independent_witness :
    (mask_medial_wall tool0 surf0 "a.dscalar.nii" []).1 =
      (mask_medial_wall tool0 surf0 "b.dscalar.nii" ["/tmp/other"]).1 :=
  c10_mask_image_independent tool0 surf0 "a.dscalar.nii" "b.dscalar.nii"
    [] ["/tmp/other"] (by decide) (by decide) (by decide) (by decide)

/-! ## Claim C1: the medial-wall mask -/

/-- Under `tool0`, the pipeline reaches the mask construction with the
atlas's single left-cortex vertex 5. -/
theorem mask_tool0_eval :
    (mask_medial_wall tool0 surf0 "img.dscalar.nii" []).1 =
      buildMask 32492 [5] := rfl

/-- The concrete mask `buildMask` produces under `tool0`. -/
theorem buildMask_tool0_value :
    buildMask 32492 [(5 : Int)] =
      .ok ((List.replicate 32492 true).set (5 : Int).toNat false) :=
  buildMask_single 32492 5 (by omega) (by omega)

/-- C1 (counterexample): under the tool behaviour `tool0` the atlas's left
cortex references exactly one distinct vertex, yet the returned mask has
32,491 `true` entries, not one: `true` marks the medial wall, so the count
of `true` entries is the complement of the claim's value. -/
theorem c1_counterexample :
    (mask_medial_wall tool0 surf0 "img.dscalar.nii" []).1.map
        (List.count true) = .ok 32491 ∧
    ((vertexCol [((0 : Nat), [(5 : Int)])]).map (normIdx 32492)).dedup.length
      = 1 := by
  constructor
  · rw [mask_tool0_eval, buildMask_tool0_value]
    have hct := buildMask_count_true 32492 [(5 : Int)] _ buildMask_tool0_value
    have hded : (([(5 : Int)]).map (normIdx 32492)).dedup.length = 1 := by
      decide
    rw [hded] at hct
    simp only [Except.map]
    rw [hct]
  · decide

/-- C1 (amended): a returned mask has exactly 32,492 entries; `false` (not
`true`) marks a vertex with a parcel assignment in the detected
hemisphere's reference-atlas table, `true` marks a vertex absent from it
(the medial wall); hence the count of `false` entries equals the number of
distinct vertex indices referenced by that table, and the count of `true`
entries is its complement. -/
theorem c1_mask_semantics (tool : Tool) (surf : SurfaceFile) (image : String)
    (fs : FsState) (mask : List Bool) (hemi : String)
    (tbl : List (Nat × List Int))
    (hh : get_hemisphere surf.sname surf.meta = .ok hemi)
    (ht : (exportResult tool dlabelFile).toOption.bind
            (fun d => d.lookup hemi) = some tbl)
    (hm : (mask_medial_wall tool surf image fs).1 = .ok mask) :
    mask.length = 32492 ∧
    mask = (List.range 32492).map
      (fun i =>
        if i ∈ (vertexCol tbl).map (normIdx 32492) then false else true) ∧
    mask.count false = ((vertexCol tbl).map (normIdx 32492)).dedup.length ∧
    mask.count true =
      32492 - ((vertexCol tbl).map (normIdx 32492)).dedup.length := by
  unfold mask_medial_wall export_cifti_mapping at hm
  cases hc : dscalarExtCheck image with
  | error e => rw [hc] at hm; exact absurd hm (by simp)
  | ok u =>
    rw [hc] at hm
    dsimp only at hm
    by_cases hnv : surf.nv ≠ 32492
    · rw [if_pos hnv] at hm; exact absurd hm (by simp)
    · rw [if_neg hnv] at hm
      push_neg at hnv
      rw [hh] at hm
      dsimp only at hm
      cases hi : exportResult tool image with
      | error e => rw [hi] at hm; exact absurd hm (by simp)
      | ok dimg =>
        rw [hi] at hm
        dsimp only at hm
        cases ha : exportResult tool dlabelFile with
        | error e =>
          rw [ha] at ht
          exact absurd ht (by simp [Except.toOption])
        | ok mappings =>
          rw [ha] at hm ht
          dsimp only at hm
          simp only [Except.toOption, Option.some_bind] at ht
          rw [ht] at hm
          dsimp only at hm
          rw [hnv] at hm
          exact ⟨buildMask_length _ _ _ hm, buildMask_ok_eq _ _ _ hm,
            buildMask_count_false _ _ _ hm, buildMask_count_true _ _ _ hm⟩

/-- C1 (witness): the amended mask semantics at the concrete `tool0`
pipeline — the mask is all-true except vertex 5, with one `false` entry. -/
theorem c1_mask_semantics_witness :
    mask0.length = 32492 ∧
    mask0 = (List.range 32492).map
      (fun i =>
        if i ∈ (vertexCol [((0 : Nat), [(5 : Int)])]).map (normIdx 32492)
        then false else true) ∧
    mask0.count false =
      ((vertexCol [((0 : Nat), [(5 : Int)])]).map (normIdx 32492)).dedup.length ∧
    mask0.count true =
      32492 -
        ((vertexCol [((0 : Nat), [(5 : Int)])]).map
          (normIdx 32492)).dedup.length := by
  have h := c1_mask_semantics tool0 surf0 "img.dscalar.nii" [] mask0
    "CortexLeft" [((0 : Nat), [(5 : Int)])] rfl rfl ?hm
  · exact h
  case hm =>
    rw [mask_tool0_eval, buildMask_tool0_value]
    rfl

end Brainsmash
